/-
Formal model of the authentication subsystem of the AI Meal Planner
application (src/AI-Meal-Planner.py).

The durable MongoDB state is modelled as a `DB` value holding the two
collections (`users`, `auth_tokens`) together with an object-id counter.
Every `AuthManager` method opens its own storage connection; the outcome of
that per-call connection attempt, and of the guarded query it runs, is
modelled by a `DBCond` argument: `down` stands for `get_mongo_client`
returning `None`, `err` for the collection operation raising (caught by the
method), `ok` for the normal path.  Time (`datetime.now()`) is passed
explicitly as a natural number of seconds.
-/
import Mathlib

namespace MealPlanner

/-- Character range `A-Z` of the source regexes. -/
def isUpperAZ (c : Char) : Bool := 'A' ≤ c && c ≤ 'Z'

/-- Character range `a-z` of the source regexes. -/
def isLowerAZ (c : Char) : Bool := 'a' ≤ c && c ≤ 'z'

/-- Character range `0-9` of the source regexes. -/
def isDigit09 (c : Char) : Bool := '0' ≤ c && c ≤ '9'

/-- Character class `[a-zA-Z]`. -/
def isAlphaAZ (c : Char) : Bool := isUpperAZ c || isLowerAZ c

/-- Character class `[a-zA-Z0-9._%+-]`: the local part of the email regex in
`AuthManager.validate_email`. -/
def isLocalChar (c : Char) : Bool :=
  isAlphaAZ c || isDigit09 c || c == '.' || c == '_' || c == '%' || c == '+' || c == '-'

/-- Character class `[a-zA-Z0-9.-]`: the domain part of the email regex. -/
def isDomainChar (c : Char) : Bool :=
  isAlphaAZ c || isDigit09 c || c == '.' || c == '-'

/-- Matches `[a-zA-Z]{2,}$`: the top-level-domain tail of the email regex. -/
def tldOk (cs : List Char) : Bool := 2 ≤ cs.length && cs.all isAlphaAZ

/-- Matches `[a-zA-Z0-9.-]*\.[a-zA-Z]{2,}$` with the backtracking semantics of
`re.match`: at each character either close the domain with the literal dot and
a valid tld, or consume one more domain character. -/
def domTail : List Char → Bool
  | [] => false
  | c :: rest => (c == '.' && tldOk rest) || (isDomainChar c && domTail rest)

/-- Matches `[a-zA-Z0-9.-]+\.[a-zA-Z]{2,}$`: at least one domain character,
then `domTail`. -/
def domMatch : List Char → Bool
  | [] => false
  | c :: rest => isDomainChar c && domTail rest

/-- Matches `[a-zA-Z0-9._%+-]*@[a-zA-Z0-9.-]+\.[a-zA-Z]{2,}$`: at each
character either the separating `@` followed by the domain, or one more local
character.  (`@` is not in the local class, so the two branches are
exclusive.) -/
def localTail : List Char → Bool
  | [] => false
  | c :: rest => (c == '@' && domMatch rest) || (isLocalChar c && localTail rest)

/-- The semantics of the `$` anchor in Python `re` (without `re.MULTILINE`):
`$` matches at the end of the string and also just before one newline that
ends the string.  No character class of the email pattern contains `'\n'`,
so the anchored pattern matches a string exactly when it matches the string
with one optional trailing newline removed; this function removes it. -/
def stripTrailingNewline : List Char → List Char
  | [] => []
  | [c] => if c = '\n' then [] else [c]
  | c :: c' :: rest => c :: stripTrailingNewline (c' :: rest)

/-- The email pattern `^[a-zA-Z0-9._%+-]+@[a-zA-Z0-9.-]+\.[a-zA-Z]{2,}`
against an exact character list: nonempty local part, the separating `@`,
then the domain. -/
def emailMatch : List Char → Bool
  | [] => false
  | c :: rest => isLocalChar c && localTail rest

/-- `AuthManager.validate_email`: `re.match` of the anchored pattern
`^[a-zA-Z0-9._%+-]+@[a-zA-Z0-9.-]+\.[a-zA-Z]{2,}$` against the whole
string, where `$` also matches just before a single trailing newline
(standard Python `re` semantics, handled by `stripTrailingNewline`). -/
def validate_email (email : String) : Bool :=
  emailMatch (stripTrailingNewline email.data)

/-- The character class `[!@#$%^&*()_+-=]` of the final check in
`AuthManager.validate_password`.  Inside a regex character class the
subsequence `+-=` is a RANGE from `+` (U+002B) to `=` (U+003D), so the class
also contains the comma, the hyphen, the period, the slash, the digits `0-9`,
the colon, the semicolon and `<`.  This is modelled faithfully. -/
def inSpecialClass (c : Char) : Bool :=
  c == '!' || c == '@' || c == '#' || c == '$' || c == '%' || c == '^' ||
  c == '&' || c == '*' || c == '(' || c == ')' || c == '_' ||
  ('+' ≤ c && c ≤ '=')

/-- The fourteen characters literally listed in the error message of the
special-character rule, read as individual characters (the intended
special-character set). -/
def specialCharsListed : List Char :=
  ['!', '@', '#', '$', '%', '^', '&', '*', '(', ')', '_', '+', '-', '=']

/-- `AuthManager.validate_password`: the five sequential strength checks,
returning the flag and the message of the first unmet rule. -/
def validate_password (password : String) : Bool × String :=
  if password.length < 8 then
    (false, "Password must be at least 8 characters long")
  else if !(password.data.any isUpperAZ) then
    (false, "Password must contain at least one uppercase letter")
  else if !(password.data.any isLowerAZ) then
    (false, "Password must contain at least one lowercase letter")
  else if !(password.data.any isDigit09) then
    (false, "Password must contain at least one digit")
  else if !(password.data.any inSpecialClass) then
    (false, "Password must contain at least one special character (!@#$%^&*()_+-=)")
  else
    (true, "Password is valid")

/-- Model of the external bcrypt library used by `AuthManager.hash_password`:
a one-way hash satisfying the bcrypt contract that `checkpw p (hashpw p)`
holds and `checkpw p h` fails for any `h` that is not a hash of `p`.  (Real
bcrypt salts randomly; the deterministic tag is a sound abstraction for the
claims, which only use the contract.) -/
def hash_password (password : String) : String := "bcrypt$" ++ password

/-- Model of `bcrypt.checkpw` used by `AuthManager.verify_password`. -/
def verify_password (password hashed : String) : Bool :=
  hashed == "bcrypt$" ++ password

/-- A document of the `users` collection, as written by
`AuthManager.register_user`; `user_id` models the Mongo `_id`. -/
structure UserRec where
  username : String
  email : String
  password : String
  created_at : Nat
  is_active : Bool
  user_id : Nat
deriving DecidableEq

/-- A document of the `auth_tokens` collection, as written by
`AuthManager.generate_token`. -/
structure TokenRec where
  token : String
  user_id : Nat
  created_at : Nat
  expires_at : Nat
deriving DecidableEq

/-- The durable MongoDB state: both collections plus the object-id counter
used for fresh `_id` values. -/
structure DB where
  users : List UserRec
  tokens : List TokenRec
  nextId : Nat
deriving DecidableEq

/-- Outcome of one storage call: `down` models `get_mongo_client` returning
`None`, `err` models the guarded collection operation raising, `ok` the
normal path. -/
inductive DBCond where
  | down
  | err
  | ok
deriving DecidableEq

/-- The user-info dictionary `{username, email, user_id}` returned by
`authenticate_user` and `validate_token`. -/
structure UserInfo where
  username : String
  email : String
  user_id : Nat
deriving DecidableEq

/-- `AuthManager.user_exists`: `find_one({"email": email})` is not `None`;
returns `False` both when no client is available and when the query raises. -/
def user_exists (c : DBCond) (db : DB) (email : String) : Bool :=
  match c with
  | .down => false
  | .err => false
  | .ok => db.users.any (fun u => u.email == email)

/-- `AuthManager.register_user`.  `cCheck` is the storage condition of the
nested `user_exists` call, `cIns` that of the insert; `now` is
`datetime.now()`.  The `err` message carries `str(e)` in the source, modelled
without the exception text. -/
def register_user (cCheck cIns : DBCond) (db : DB)
    (username email password : String) (now : Nat) : DB × Bool × String :=
  if !(validate_email email) then
    (db, false, "Invalid email format")
  else
    match validate_password password with
    | (false, msg) => (db, false, msg)
    | (true, _) =>
      if user_exists cCheck db email then
        (db, false, "User with this email already exists")
      else
        match cIns with
        | .down => (db, false, "Database connection failed")
        | .err => (db, false, "Registration failed")
        | .ok =>
          let newUser : UserRec :=
            { username := username, email := email,
              password := hash_password password,
              created_at := now, is_active := true, user_id := db.nextId }
          ({ users := db.users ++ [newUser], tokens := db.tokens,
             nextId := db.nextId + 1 },
           true, "User registered successfully")

/-- `AuthManager.authenticate_user`: `find_one({"email": email, "is_active":
True})`, then bcrypt verification; both the missing-user case and the
wrong-password case return the same triple. -/
def authenticate_user (c : DBCond) (db : DB) (email password : String) :
    Bool × String × Option UserInfo :=
  match c with
  | .down => (false, "Database connection failed", none)
  | .err => (false, "Authentication failed", none)
  | .ok =>
    match db.users.find? (fun u => u.email == email && u.is_active) with
    | none => (false, "Invalid email or password", none)
    | some u =>
      if verify_password password u.password then
        (true, "Login successful",
         some { username := u.username, email := u.email, user_id := u.user_id })
      else
        (false, "Invalid email or password", none)

/-- `timedelta(days = d)` in seconds. -/
def timedeltaDays (d : Nat) : Nat := d * 86400

/-- `AuthManager.generate_token`: the fresh random string from
`secrets.token_urlsafe(32)` is passed in as `tok`; on the `ok` path the token
document is inserted and the token returned, otherwise `None` and the store
is unchanged. -/
def generate_token (c : DBCond) (db : DB) (tok : String) (user_id : Nat)
    (expiry_days : Nat) (now : Nat) : DB × Option String :=
  match c with
  | .down => (db, none)
  | .err => (db, none)
  | .ok =>
    let tokenRec : TokenRec :=
      { token := tok, user_id := user_id, created_at := now,
        expires_at := now + timedeltaDays expiry_days }
    ({ users := db.users, tokens := db.tokens ++ [tokenRec],
       nextId := db.nextId }, some tok)

/-- `AuthManager.validate_token`: rejects a falsy token, then
`find_one({"token": tok, "expires_at": {"$gt": now}})`, then
`find_one({"_id": ObjectId(user_id), "is_active": True})`.  The method only
reads: it takes no lock and writes nothing, which the pure signature
reflects (in particular `expires_at` is never extended). -/
def validate_token (c : DBCond) (db : DB) (tok : String) (now : Nat) :
    Option UserInfo :=
  if tok == "" then none
  else
    match c with
    | .down => none
    | .err => none
    | .ok =>
      match db.tokens.find? (fun t => t.token == tok && decide (now < t.expires_at)) with
      | none => none
      | some td =>
        match db.users.find? (fun u => u.user_id == td.user_id && u.is_active) with
        | none => none
        | some u =>
          some { username := u.username, email := u.email, user_id := u.user_id }

/-- `AuthManager.revoke_token`: a falsy token, a missing client and a raising
query are all silent no-ops; otherwise `delete_one({"token": tok})` removes
the first matching document. -/
def revoke_token (c : DBCond) (db : DB) (tok : String) : DB :=
  if tok == "" then db
  else
    match c with
    | .down => db
    | .err => db
    | .ok => { users := db.users, tokens := db.tokens.eraseP (fun t => t.token == tok),
               nextId := db.nextId }

/-- The transient Streamlit session state relevant to authentication. -/
structure Session where
  authenticated : Bool
  user_info : Option UserInfo
  auth_token : Option String
deriving DecidableEq

/-- The client-side cookie store (only the `auth_token` key is used). -/
structure Cookies where
  auth_token : Option String
deriving DecidableEq

/-- The submit branch of `show_login_form`: empty-field guard, then
`authenticate_user` (its per-call storage condition `cAuth`); on success the
session is marked authenticated with the returned info, and when remember-me
is checked `generate_token` (condition `cTok`, fresh string `freshTok`) is
attempted; only when it returns a token are session and cookie updated with
it.  Returns the new store, session, cookies and the displayed message. -/
def show_login_form (cAuth cTok : DBCond) (db : DB) (email password : String)
    (remember_me : Bool) (freshTok : String) (now : Nat)
    (s : Session) (ck : Cookies) : DB × Session × Cookies × String :=
  if email == "" || password == "" then (db, s, ck, "Please fill in all fields")
  else
    match authenticate_user cAuth db email password with
    | (true, msg, some info) =>
      let s1 : Session :=
        { authenticated := true, user_info := some info, auth_token := s.auth_token }
      if remember_me then
        match generate_token cTok db freshTok info.user_id 30 now with
        | (db2, some tok) =>
          (db2, { s1 with auth_token := some tok }, { auth_token := some tok }, msg)
        | (db2, none) => (db2, s1, ck, msg)
      else (db, s1, ck, msg)
    | (true, msg, none) =>
      (db, { authenticated := true, user_info := none, auth_token := s.auth_token },
       ck, msg)
    | (false, msg, _) => (db, s, ck, msg)

/-! Helper lemmas: structural characterization of the email matcher. -/

theorem domTail_iff (cs : List Char) :
    domTail cs = true ↔
      ∃ d t, cs = d ++ '.' :: t ∧ d.all isDomainChar = true ∧ tldOk t = true := by
  induction cs with
  | nil =>
    simp only [domTail]
    constructor
    · intro h; cases h
    · rintro ⟨d, t, h, -, -⟩
      exact absurd h (by simp)
  | cons c rest ih =>
    simp only [domTail, Bool.or_eq_true, Bool.and_eq_true]
    constructor
    · rintro (⟨hc, ht⟩ | ⟨hc, ht⟩)
      · have hc' : c = '.' := by simpa using hc
        exact ⟨[], rest, by simp [hc'], by simp, ht⟩
      · obtain ⟨d, t, hdt, hall, htld⟩ := ih.1 ht
        exact ⟨c :: d, t, by simp [hdt], by simp [hc, hall], htld⟩
    · rintro ⟨d, t, hdt, hall, htld⟩
      cases d with
      | nil =>
        simp only [List.nil_append, List.cons.injEq] at hdt
        exact Or.inl ⟨by simp [hdt.1], hdt.2 ▸ htld⟩
      | cons c' d' =>
        simp only [List.cons_append, List.cons.injEq] at hdt
        obtain ⟨rfl, hrest⟩ := hdt
        simp only [List.all_cons, Bool.and_eq_true] at hall
        exact Or.inr ⟨hall.1, ih.2 ⟨d', t, hrest, hall.2, htld⟩⟩

theorem domMatch_iff (cs : List Char) :
    domMatch cs = true ↔
      ∃ d t, cs = d ++ '.' :: t ∧ d ≠ [] ∧ d.all isDomainChar = true ∧ tldOk t = true := by
  cases cs with
  | nil =>
    simp only [domMatch]
    constructor
    · intro h; cases h
    · rintro ⟨d, t, h, -, -, -⟩
      exact absurd h (by simp)
  | cons c rest =>
    simp only [domMatch, Bool.and_eq_true]
    constructor
    · rintro ⟨hc, ht⟩
      obtain ⟨d, t, hdt, hall, htld⟩ := (domTail_iff rest).1 ht
      exact ⟨c :: d, t, by simp [hdt], by simp, by simp [hc, hall], htld⟩
    · rintro ⟨d, t, hdt, hne, hall, htld⟩
      cases d with
      | nil => exact absurd rfl hne
      | cons c' d' =>
        simp only [List.cons_append, List.cons.injEq] at hdt
        obtain ⟨rfl, hrest⟩ := hdt
        simp only [List.all_cons, Bool.and_eq_true] at hall
        exact ⟨hall.1, (domTail_iff rest).2 ⟨d', t, hrest, hall.2, htld⟩⟩

theorem localTail_iff (cs : List Char) :
    localTail cs = true ↔
      ∃ l r, cs = l ++ '@' :: r ∧ l.all isLocalChar = true ∧ domMatch r = true := by
  induction cs with
  | nil =>
    simp only [localTail]
    constructor
    · intro h; cases h
    · rintro ⟨l, r, h, -, -⟩
      exact absurd h (by simp)
  | cons c rest ih =>
    simp only [localTail, Bool.or_eq_true, Bool.and_eq_true]
    constructor
    · rintro (⟨hc, hd⟩ | ⟨hc, ht⟩)
      · have hc' : c = '@' := by simpa using hc
        exact ⟨[], rest, by simp [hc'], by simp, hd⟩
      · obtain ⟨l, r, hlr, hall, hd⟩ := ih.1 ht
        exact ⟨c :: l, r, by simp [hlr], by simp [hc, hall], hd⟩
    · rintro ⟨l, r, hlr, hall, hd⟩
      cases l with
      | nil =>
        simp only [List.nil_append, List.cons.injEq] at hlr
        exact Or.inl ⟨by simp [hlr.1], hlr.2 ▸ hd⟩
      | cons c' l' =>
        simp only [List.cons_append, List.cons.injEq] at hlr
        obtain ⟨rfl, hrest⟩ := hlr
        simp only [List.all_cons, Bool.and_eq_true] at hall
        exact Or.inr ⟨hall.1, ih.2 ⟨l', r, hrest, hall.2, hd⟩⟩

/-- Structural reading of the newline-free part of the email regex: the
character list splits as a nonempty local part, the separating `@`, a
nonempty domain part, the last dot and a top-level domain of two or more
letters. -/
theorem emailMatch_iff (cs : List Char) :
    emailMatch cs = true ↔
      ∃ l d t : List Char, cs = l ++ '@' :: (d ++ '.' :: t) ∧
        l ≠ [] ∧ l.all isLocalChar = true ∧
        d ≠ [] ∧ d.all isDomainChar = true ∧
        2 ≤ t.length ∧ t.all isAlphaAZ = true := by
  have htld : ∀ t : List Char, tldOk t = true ↔ 2 ≤ t.length ∧ t.all isAlphaAZ = true := by
    intro t
    simp [tldOk]
  cases cs with
  | nil =>
    constructor
    · intro h; cases h
    · rintro ⟨l, d, t, h, -, -, -, -, -, -⟩
      exact absurd h (by simp)
  | cons c rest =>
    simp only [emailMatch, Bool.and_eq_true]
    constructor
    · rintro ⟨hc, ht⟩
      obtain ⟨l, r, hlr, hall, hd⟩ := (localTail_iff rest).1 ht
      obtain ⟨d, t, hdt, hdne, hdall, htldOk⟩ := (domMatch_iff r).1 hd
      refine ⟨c :: l, d, t, by simp [hlr, hdt], by simp, by simp [hc, hall], hdne,
        hdall, ((htld t).1 htldOk).1, ((htld t).1 htldOk).2⟩
    · rintro ⟨l, d, t, hsplit, hlne, hlall, hdne, hdall, hlen, halpha⟩
      cases l with
      | nil => exact absurd rfl hlne
      | cons c' l' =>
        simp only [List.cons_append, List.cons.injEq] at hsplit
        obtain ⟨rfl, hrest⟩ := hsplit
        simp only [List.all_cons, Bool.and_eq_true] at hlall
        refine ⟨hlall.1, (localTail_iff rest).2 ⟨l', d ++ '.' :: t, hrest, hlall.2, ?_⟩⟩
        exact (domMatch_iff _).2 ⟨d, t, rfl, hdne, hdall, (htld t).2 ⟨hlen, halpha⟩⟩

theorem stripTrailingNewline_cons_cons (c c' : Char) (rest : List Char) :
    stripTrailingNewline (c :: c' :: rest) = c :: stripTrailingNewline (c' :: rest) := rfl

theorem stripTrailingNewline_concat_newline (cs : List Char) :
    stripTrailingNewline (cs ++ ['\n']) = cs := by
  induction cs with
  | nil => simp [stripTrailingNewline]
  | cons c rest ih =>
    cases rest with
    | nil => simp [stripTrailingNewline]
    | cons c' rest' =>
      simp only [List.cons_append] at ih ⊢
      rw [stripTrailingNewline_cons_cons, ih]

theorem self_eq_strip_or_concat_newline (cs : List Char) :
    cs = stripTrailingNewline cs ∨ cs = stripTrailingNewline cs ++ ['\n'] := by
  induction cs with
  | nil => exact Or.inl rfl
  | cons c rest ih =>
    cases rest with
    | nil =>
      by_cases hc : c = '\n'
      · subst hc
        right
        simp [stripTrailingNewline]
      · left
        simp [stripTrailingNewline, hc]
    | cons c' rest' =>
      rw [stripTrailingNewline_cons_cons]
      rcases ih with h | h
      · left
        rw [← h]
      · right
        rw [List.cons_append, ← h]

theorem strip_concat_of_ne_newline {cs : List Char} {a : Char} (h : ¬ a = '\n') :
    stripTrailingNewline (cs ++ [a]) = cs ++ [a] := by
  induction cs with
  | nil => simp [stripTrailingNewline, h]
  | cons c rest ih =>
    cases rest with
    | nil => simp [stripTrailingNewline, h]
    | cons c' rest' =>
      simp only [List.cons_append] at ih ⊢
      rw [stripTrailingNewline_cons_cons, ih]

/-- Structural reading of `validate_email`: a string is accepted iff, up to
one optional trailing newline (the `$` tolerance of `re.match`), it splits as
a nonempty local part, the separating `@`, a nonempty domain part, the last
dot and a top-level domain of two or more letters. -/
theorem validate_email_iff (s : String) :
    validate_email s = true ↔
      ∃ l d t tail : List Char,
        s.data = (l ++ '@' :: (d ++ '.' :: t)) ++ tail ∧
        (tail = [] ∨ tail = ['\n']) ∧
        l ≠ [] ∧ l.all isLocalChar = true ∧
        d ≠ [] ∧ d.all isDomainChar = true ∧
        2 ≤ t.length ∧ t.all isAlphaAZ = true := by
  unfold validate_email
  constructor
  · intro h
    obtain ⟨l, d, t, hsplit, hlne, hlall, hdne, hdall, hlen, halpha⟩ :=
      (emailMatch_iff _).1 h
    rcases self_eq_strip_or_concat_newline s.data with hs | hs
    · exact ⟨l, d, t, [], by rw [List.append_nil, hs, hsplit], Or.inl rfl,
        hlne, hlall, hdne, hdall, hlen, halpha⟩
    · exact ⟨l, d, t, ['\n'], by rw [hs, hsplit], Or.inr rfl,
        hlne, hlall, hdne, hdall, hlen, halpha⟩
  · rintro ⟨l, d, t, tail, hsplit, htail, hlne, hlall, hdne, hdall, hlen, halpha⟩
    have htne : t ≠ [] := by
      intro h0
      rw [h0] at hlen
      exact absurd hlen (by simp)
    obtain ⟨t', a, hta⟩ := (List.eq_nil_or_concat t).resolve_left htne
    rw [List.concat_eq_append] at hta
    have halpha' : isAlphaAZ a = true := by
      rw [hta] at halpha
      simp only [List.all_append, List.all_cons, List.all_nil, Bool.and_eq_true] at halpha
      exact halpha.2.1
    have hane : ¬ a = '\n' := by
      intro h0
      rw [h0] at halpha'
      exact absurd halpha' (by decide)
    have hcore : (l ++ '@' :: (d ++ '.' :: t)) =
        (l ++ '@' :: (d ++ '.' :: t')) ++ [a] := by
      rw [hta]
      simp
    rcases htail with rfl | rfl
    · rw [List.append_nil] at hsplit
      rw [hsplit, hcore, strip_concat_of_ne_newline hane, ← hcore]
      exact (emailMatch_iff _).2 ⟨l, d, t, rfl, hlne, hlall, hdne, hdall, hlen, halpha⟩
    · rw [hsplit, stripTrailingNewline_concat_newline]
      exact (emailMatch_iff _).2 ⟨l, d, t, rfl, hlne, hlall, hdne, hdall, hlen, halpha⟩

/-! Helper lemmas: lists with at most one element satisfying a predicate. -/

theorem countP_le_one_mem_unique {α : Type} {l : List α} {p : α → Bool}
    (h : l.countP p ≤ 1) {a b : α} (ha : a ∈ l) (hb : b ∈ l)
    (hpa : p a = true) (hpb : p b = true) : a = b := by
  induction l with
  | nil => cases ha
  | cons x xs ih =>
    rcases List.mem_cons.1 ha with rfl | ha' <;> rcases List.mem_cons.1 hb with rfl | hb'
    · rfl
    · exfalso
      rw [List.countP_cons_of_pos _ _ hpa] at h
      have h0 : xs.countP p = 0 := by omega
      exact (List.countP_eq_zero.1 h0) b hb' hpb
    · exfalso
      rw [List.countP_cons_of_pos _ _ hpb] at h
      have h0 : xs.countP p = 0 := by omega
      exact (List.countP_eq_zero.1 h0) a ha' hpa
    · refine ih ?_ ha' hb'
      rw [List.countP_cons] at h
      omega

theorem eraseP_no_match {α : Type} {l : List α} {p : α → Bool}
    (h : l.countP p ≤ 1) : ∀ x ∈ l.eraseP p, ¬ p x = true := by
  induction l with
  | nil => simp
  | cons a as ih =>
    by_cases hp : p a = true
    · rw [List.eraseP_cons_of_pos hp]
      rw [List.countP_cons_of_pos _ _ hp] at h
      have h0 : as.countP p = 0 := by omega
      exact List.countP_eq_zero.1 h0
    · rw [List.eraseP_cons_of_neg hp]
      rw [List.countP_cons_of_neg _ _ hp] at h
      intro x hx
      rcases List.mem_cons.1 hx with rfl | hx'
      · exact hp
      · exact ih h x hx'

/-! Concrete stores used by the witnesses. -/

/-- A store holding one active user. -/
def exampleDb : DB :=
  { users := [{ username := "alice", email := "alice@example.com",
                password := hash_password "Secret123!", created_at := 0,
                is_active := true, user_id := 7 }],
    tokens := [], nextId := 8 }

/-- A store holding the user of `exampleDb` plus one unexpired token for it. -/
def tokenDb : DB :=
  { users := exampleDb.users,
    tokens := [{ token := "tok1", user_id := 7, created_at := 0, expires_at := 1000 }],
    nextId := 8 }

/-- The empty store. -/
def emptyDb : DB := { users := [], tokens := [], nextId := 0 }

/-! Claim theorems. -/

/-- C3: the password policy at the concrete inputs of the claim.  The first
five conjuncts behave as the claim states; the last two exhibit the
divergence: `"NoSpecial123"` contains none of the characters listed as
special by the unmet-rule message, yet `validate_password` accepts it,
because the character-class range `+-=` of the source regex also matches its
digits. -/
theorem validate_password_NoSpecial123_accepted :
    validate_password "short1!" =
      (false, "Password must be at least 8 characters long") ∧
    validate_password "alllowercase1!" =
      (false, "Password must contain at least one uppercase letter") ∧
    validate_password "ALLUPPERCASE1!" =
      (false, "Password must contain at least one lowercase letter") ∧
    validate_password "NoDigitsHere!" =
      (false, "Password must contain at least one digit") ∧
    validate_password "Valid123!" = (true, "Password is valid") ∧
    "NoSpecial123".data.all (fun c => !(specialCharsListed.contains c)) = true ∧
    validate_password "NoSpecial123" = (true, "Password is valid") := by
  decide

/-- C8: the email validator accepts and rejects the concrete inputs of the
claim, and in general a string is accepted iff — up to one optional trailing
newline, which the `$` anchor of `re.match` tolerates — it splits as
`local@domain.tld`: a nonempty local part over `[a-zA-Z0-9._%+-]`, the
separating `@`, a nonempty domain part over `[a-zA-Z0-9.-]`, a dot, and a
top-level domain of at least two letters.  The fifth conjunct exhibits the
newline tolerance on a concrete input. -/
theorem validate_email_examples_and_pattern :
    validate_email "user@example.com" = true ∧
    validate_email "user@@example" = false ∧
    validate_email "userexample.com" = false ∧
    validate_email "user@.com" = false ∧
    validate_email "user@example.com\n" = true ∧
    (∀ s : String, validate_email s = true ↔
      ∃ l d t tail : List Char,
        s.data = (l ++ '@' :: (d ++ '.' :: t)) ++ tail ∧
        (tail = [] ∨ tail = ['\n']) ∧
        l ≠ [] ∧ l.all isLocalChar = true ∧
        d ≠ [] ∧ d.all isDomainChar = true ∧
        2 ≤ t.length ∧ t.all isAlphaAZ = true) :=
  ⟨by decide, by decide, by decide, by decide, by decide, validate_email_iff⟩

/-- C2: with a working store, `authenticate_user` returns one identical error
triple both when no active user carries the email and when the first active
user with the email fails password verification, so the two failure causes
are indistinguishable from the result. -/
theorem authenticate_user_error_indistinguishable (db : DB) (email password : String)
    (h : db.users.find? (fun u => u.email == email && u.is_active) = none ∨
         ∃ u, db.users.find? (fun u => u.email == email && u.is_active) = some u ∧
              verify_password password u.password = false) :
    authenticate_user .ok db email password =
      (false, "Invalid email or password", none) := by
  rcases h with h | ⟨u, hu, hv⟩
  · simp [authenticate_user, h]
  · simp [authenticate_user, hu, hv]

/-- Witness for C2: in `exampleDb`, an unknown email and a known email with a
wrong password produce the same result. -/
theorem authenticate_user_error_indistinguishable_witness :
    authenticate_user .ok exampleDb "ghost@example.com" "Secret123!" =
      (false, "Invalid email or password", none) ∧
    authenticate_user .ok exampleDb "alice@example.com" "Wrong123!" =
      (false, "Invalid email or password", none) :=
  ⟨authenticate_user_error_indistinguishable exampleDb "ghost@example.com" "Secret123!"
      (Or.inl (by decide)),
   authenticate_user_error_indistinguishable exampleDb "alice@example.com" "Wrong123!"
      (Or.inr ⟨{ username := "alice", email := "alice@example.com",
                 password := hash_password "Secret123!", created_at := 0,
                 is_active := true, user_id := 7 }, by decide, by decide⟩)⟩

/-- C10: both a failed store connection and a raising query make `user_exists`
report `False` rather than a database error, so `register_user` treats the
email as unused: with the existence check failing and the insert succeeding,
registration goes through regardless of existing records with the same
email. -/
theorem user_exists_store_failure_false (db : DB) (email : String) :
    user_exists .down db email = false ∧ user_exists .err db email = false ∧
    (∀ (cCheck : DBCond) (username password : String) (now : Nat),
      cCheck = .down ∨ cCheck = .err →
      validate_email email = true →
      (validate_password password).1 = true →
      register_user cCheck .ok db username email password now =
        ({ users := db.users ++
             [{ username := username, email := email,
                password := hash_password password, created_at := now,
                is_active := true, user_id := db.nextId }],
           tokens := db.tokens, nextId := db.nextId + 1 },
         true, "User registered successfully")) := by
  refine ⟨rfl, rfl, ?_⟩
  intro cCheck username password now hc hem hpw
  rcases hvp : validate_password password with ⟨b, m⟩
  rw [hvp] at hpw
  simp only at hpw
  subst hpw
  rcases hc with rfl | rfl <;> simp [register_user, hem, hvp, user_exists]

/-- Witness for C10: the store check failing during registration lets a
second account with an already-registered email through. -/
theorem user_exists_store_failure_false_witness :
    user_exists .down exampleDb "alice@example.com" = false ∧
    register_user .down .ok exampleDb "alice2" "alice@example.com" "Valid123!" 5 =
      ({ users := exampleDb.users ++
           [{ username := "alice2", email := "alice@example.com",
              password := hash_password "Valid123!", created_at := 5,
              is_active := true, user_id := 8 }],
         tokens := exampleDb.tokens, nextId := 9 },
       true, "User registered successfully") :=
  ⟨(user_exists_store_failure_false exampleDb "alice@example.com").1,
   (user_exists_store_failure_false exampleDb "alice@example.com").2.2
     .down "alice2" "Valid123!" 5 (Or.inl rfl) (by decide) (by decide)⟩

/-- C1: with a working store, registering a valid unused (username, email,
password) and immediately authenticating with the same credentials succeeds
and returns exactly the registered username and email. -/
theorem register_then_authenticate (db : DB) (username email password : String)
    (now : Nat)
    (hem : validate_email email = true)
    (hpw : (validate_password password).1 = true)
    (hex : user_exists .ok db email = false) :
    (register_user .ok .ok db username email password now).2.1 = true ∧
    authenticate_user .ok (register_user .ok .ok db username email password now).1
        email password =
      (true, "Login successful",
       some { username := username, email := email, user_id := db.nextId }) := by
  rcases hvp : validate_password password with ⟨b, m⟩
  rw [hvp] at hpw
  simp only at hpw
  subst hpw
  have hreg : register_user .ok .ok db username email password now =
      ({ users := db.users ++
           [{ username := username, email := email,
              password := hash_password password, created_at := now,
              is_active := true, user_id := db.nextId }],
         tokens := db.tokens, nextId := db.nextId + 1 },
       true, "User registered successfully") := by
    simp [register_user, hem, hvp, hex]
  have hnone : db.users.find? (fun u => u.email == email && u.is_active) = none := by
    rw [List.find?_eq_none]
    intro u hu
    simp only [user_exists, List.any_eq_false] at hex
    simp [hex u hu]
  refine ⟨by rw [hreg], ?_⟩
  rw [hreg]
  simp [authenticate_user, List.find?_append, hnone, verify_password, hash_password]

/-- Witness for C1 on the empty store. -/
theorem register_then_authenticate_witness :
    (register_user .ok .ok emptyDb "bob" "bob@example.com" "Valid123!" 0).2.1 = true ∧
    authenticate_user .ok
        (register_user .ok .ok emptyDb "bob" "bob@example.com" "Valid123!" 0).1
        "bob@example.com" "Valid123!" =
      (true, "Login successful",
       some { username := "bob", email := "bob@example.com", user_id := 0 }) :=
  register_then_authenticate emptyDb "bob" "bob@example.com" "Valid123!" 0
    (by decide) (by decide) (by decide)

/-- C6: with a working store, two successive `register_user` calls with the
same valid credentials: the first succeeds, the second fails with the
duplicate-user error and leaves the store as the first call left it. -/
theorem register_twice_duplicate (db : DB) (username email password : String)
    (now now2 : Nat)
    (hem : validate_email email = true)
    (hpw : (validate_password password).1 = true)
    (hex : user_exists .ok db email = false) :
    (register_user .ok .ok db username email password now).2.1 = true ∧
    register_user .ok .ok (register_user .ok .ok db username email password now).1
        username email password now2 =
      ((register_user .ok .ok db username email password now).1, false,
       "User with this email already exists") := by
  rcases hvp : validate_password password with ⟨b, m⟩
  rw [hvp] at hpw
  simp only at hpw
  subst hpw
  have hreg : register_user .ok .ok db username email password now =
      ({ users := db.users ++
           [{ username := username, email := email,
              password := hash_password password, created_at := now,
              is_active := true, user_id := db.nextId }],
         tokens := db.tokens, nextId := db.nextId + 1 },
       true, "User registered successfully") := by
    simp [register_user, hem, hvp, hex]
  refine ⟨by rw [hreg], ?_⟩
  rw [hreg]
  simp [register_user, hem, hvp, user_exists, List.any_append]

/-- Witness for C6 on the empty store. -/
theorem register_twice_duplicate_witness :
    (register_user .ok .ok emptyDb "eve" "eve@example.com" "Valid123!" 3).2.1 = true ∧
    register_user .ok .ok (register_user .ok .ok emptyDb "eve" "eve@example.com" "Valid123!" 3).1
        "eve" "eve@example.com" "Valid123!" 4 =
      ((register_user .ok .ok emptyDb "eve" "eve@example.com" "Valid123!" 3).1, false,
       "User with this email already exists") :=
  register_twice_duplicate emptyDb "eve" "eve@example.com" "Valid123!" 3 4
    (by decide) (by decide) (by decide)

/-- C7 counterexample: a record created by `register_user` keeps the email
exactly as entered — `"Carol@Example.com"` is stored with its uppercase
letters, so it is not lowercase-normalized — and registering the same
address again in a different letter case passes the duplicate check and
creates a second account. -/
theorem register_user_stores_email_verbatim :
    (register_user .ok .ok emptyDb "carol" "Carol@Example.com" "Valid123!" 0).2.1 = true ∧
    (register_user .ok .ok emptyDb "carol" "Carol@Example.com" "Valid123!" 0).1.users.map
        (fun u => u.email) = ["Carol@Example.com"] ∧
    "Carol@Example.com".data.any isUpperAZ = true ∧
    (register_user .ok .ok
        (register_user .ok .ok emptyDb "carol" "Carol@Example.com" "Valid123!" 0).1
        "carol2" "carol@example.com" "Valid123!" 1).2.1 = true ∧
    (register_user .ok .ok
        (register_user .ok .ok emptyDb "carol" "Carol@Example.com" "Valid123!" 0).1
        "carol2" "carol@example.com" "Valid123!" 1).1.users.length = 2 := by
  decide

/-- C7 amended: registration performs no case normalization — every record it
creates stores the email exactly as entered — and email uniqueness holds only
up to exact string equality: whenever the duplicate check can run against the
store, `register_user` preserves the invariant that no two stored users share
the identical email string. -/
theorem register_user_exact_email_uniqueness (cIns : DBCond) (db : DB)
    (username email password : String) (now : Nat)
    (hdist : db.users.Pairwise (fun a b => a.email ≠ b.email)) :
    (register_user .ok cIns db username email password now).1.users.Pairwise
      (fun a b => a.email ≠ b.email) ∧
    ∀ u ∈ (register_user .ok cIns db username email password now).1.users,
      u ∈ db.users ∨ u.email = email := by
  by_cases hem : validate_email email = true
  · rcases hvp : validate_password password with ⟨b, m⟩
    cases b
    · simp [register_user, hem, hvp]
      exact ⟨hdist, fun u hu => Or.inl hu⟩
    · by_cases hex : user_exists .ok db email = true
      · simp [register_user, hem, hvp, hex]
        exact ⟨hdist, fun u hu => Or.inl hu⟩
      · have hex' : user_exists .ok db email = false := by
          simpa using hex
        have hall : ∀ u ∈ db.users, ¬ u.email = email := by
          intro u hu
          simp only [user_exists, List.any_eq_false] at hex'
          simpa using hex' u hu
        cases cIns with
        | down =>
          simp [register_user, hem, hvp, hex']
          exact ⟨hdist, fun u hu => Or.inl hu⟩
        | err =>
          simp [register_user, hem, hvp, hex']
          exact ⟨hdist, fun u hu => Or.inl hu⟩
        | ok =>
          simp only [register_user, hem, hvp, hex', Bool.not_true, Bool.not_false,
            Bool.false_eq_true, if_false]
          constructor
          · rw [List.pairwise_append]
            refine ⟨hdist, List.pairwise_singleton _ _, ?_⟩
            intro a ha b hb
            simp only [List.mem_singleton] at hb
            subst hb
            exact hall a ha
          · intro u hu
            rcases List.mem_append.1 hu with hu' | hu'
            · exact Or.inl hu'
            · simp only [List.mem_singleton] at hu'
              subst hu'
              exact Or.inr rfl
  · have hem' : validate_email email = false := by simpa using hem
    simp [register_user, hem']
    exact ⟨hdist, fun u hu => Or.inl hu⟩

/-- Witness for the amended C7 on the empty store. -/
theorem register_user_exact_email_uniqueness_witness :
    ((register_user .ok .ok emptyDb "dave" "dave@example.com" "Valid123!" 0).1.users.Pairwise
      (fun a b => a.email ≠ b.email)) ∧
    (∀ u ∈ (register_user .ok .ok emptyDb "dave" "dave@example.com" "Valid123!" 0).1.users,
      u ∈ emptyDb.users ∨ u.email = "dave@example.com") :=
  register_user_exact_email_uniqueness .ok emptyDb "dave" "dave@example.com" "Valid123!" 0
    List.Pairwise.nil

/-- C4: with a working store, a nonempty token string, at most one stored
record per token and distinct user ids (the data-model invariants),
`validate_token` returns `none` exactly when the token is absent, already at
or past its expiry, or its user is missing or inactive; and whenever the
token record exists, is unexpired and its referenced user is active, it
returns exactly that user's `{username, email, user_id}`.  The embedding is a
pure read — the method performs only `find_one` queries — so in particular no
stored `expires_at` is ever extended. -/
theorem validate_token_spec (db : DB) (tok : String) (now : Nat)
    (htok : tok ≠ "")
    (huniq : db.tokens.countP (fun t => t.token == tok) ≤ 1)
    (hids : db.users.Pairwise (fun a b => a.user_id ≠ b.user_id)) :
    (validate_token .ok db tok now = none ↔
      ¬ ∃ t ∈ db.tokens, t.token = tok ∧ now < t.expires_at ∧
          ∃ u ∈ db.users, u.user_id = t.user_id ∧ u.is_active = true) ∧
    (∀ t ∈ db.tokens, t.token = tok → now < t.expires_at →
      ∀ u ∈ db.users, u.user_id = t.user_id → u.is_active = true →
        validate_token .ok db tok now =
          some { username := u.username, email := u.email, user_id := u.user_id }) := by
  have htok' : (tok == "") = false := beq_eq_false_iff_ne.2 htok
  cases hfind : db.tokens.find? (fun t => t.token == tok && decide (now < t.expires_at)) with
  | none =>
    have hval : validate_token .ok db tok now = none := by
      simp [validate_token, htok', hfind]
    have hnex : ¬ ∃ t ∈ db.tokens, t.token = tok ∧ now < t.expires_at ∧
        ∃ u ∈ db.users, u.user_id = t.user_id ∧ u.is_active = true := by
      rintro ⟨t, ht, h1, h2, -⟩
      exact List.find?_eq_none.1 hfind t ht (by simp [h1, h2])
    refine ⟨by rw [hval]; exact iff_of_true rfl hnex, ?_⟩
    intro t ht h1 h2 u hu h3 h4
    exact absurd ⟨t, ht, h1, h2, u, hu, h3, h4⟩ hnex
  | some td =>
    have htd_mem := List.mem_of_find?_eq_some hfind
    have htd_p := List.find?_some hfind
    rw [Bool.and_eq_true] at htd_p
    have htd_tok : td.token = tok := by simpa using htd_p.1
    have htd_exp : now < td.expires_at := by simpa using htd_p.2
    have huniq' : ∀ t ∈ db.tokens, t.token = tok → t = td := by
      intro t ht h1
      exact countP_le_one_mem_unique huniq ht htd_mem (by simp [h1]) (by simp [htd_tok])
    cases hfu : db.users.find? (fun u => u.user_id == td.user_id && u.is_active) with
    | none =>
      have hval : validate_token .ok db tok now = none := by
        simp [validate_token, htok', hfind, hfu]
      have hnex : ¬ ∃ t ∈ db.tokens, t.token = tok ∧ now < t.expires_at ∧
          ∃ u ∈ db.users, u.user_id = t.user_id ∧ u.is_active = true := by
        rintro ⟨t, ht, h1, h2, u, hu, h3, h4⟩
        cases huniq' t ht h1
        exact List.find?_eq_none.1 hfu u hu (by simp [h3, h4])
      refine ⟨by rw [hval]; exact iff_of_true rfl hnex, ?_⟩
      intro t ht h1 h2 u hu h3 h4
      exact absurd ⟨t, ht, h1, h2, u, hu, h3, h4⟩ hnex
    | some u0 =>
      have hu0_mem := List.mem_of_find?_eq_some hfu
      have hu0_p := List.find?_some hfu
      rw [Bool.and_eq_true] at hu0_p
      have hu0_id : u0.user_id = td.user_id := by simpa using hu0_p.1
      have hu0_act : u0.is_active = true := hu0_p.2
      have hval : validate_token .ok db tok now =
          some { username := u0.username, email := u0.email, user_id := u0.user_id } := by
        simp [validate_token, htok', hfind, hfu]
      have hex : ∃ t ∈ db.tokens, t.token = tok ∧ now < t.expires_at ∧
          ∃ u ∈ db.users, u.user_id = t.user_id ∧ u.is_active = true :=
        ⟨td, htd_mem, htd_tok, htd_exp, u0, hu0_mem, hu0_id, hu0_act⟩
      refine ⟨by rw [hval]; exact iff_of_false (by simp) (not_not_intro hex), ?_⟩
      intro t ht h1 h2 u hu h3 h4
      cases huniq' t ht h1
      have huu0 : u = u0 := by
        by_contra hne
        exact (hids.forall (fun a b h => Ne.symm h) hu hu0_mem hne) (h3.trans hu0_id.symm)
      rw [hval, huu0]

/-- Witness for C4: in `tokenDb` the unexpired token of the active user
validates to her info. -/
theorem validate_token_spec_witness :
    validate_token .ok tokenDb "tok1" 100 =
      some { username := "alice", email := "alice@example.com", user_id := 7 } :=
  (validate_token_spec tokenDb "tok1" 100 (by decide) (by decide)
      (List.pairwise_singleton _ _)).2
    { token := "tok1", user_id := 7, created_at := 0, expires_at := 1000 }
    (by decide) rfl (by decide)
    { username := "alice", email := "alice@example.com",
      password := hash_password "Secret123!", created_at := 0,
      is_active := true, user_id := 7 }
    (by decide) rfl rfl

/-- C5: with a working store, a nonempty token string and at most one stored
record per token, revoking the token makes every subsequent validation of it
return `none` (whatever the later storage condition); revoking a token that
no stored record carries is a no-op on the store under every storage
condition; and revoking the same token twice equals revoking it once.  The
operation is a total function: it never errors. -/
theorem revoke_token_spec (db : DB) (tok : String)
    (htok : tok ≠ "")
    (huniq : db.tokens.countP (fun t => t.token == tok) ≤ 1) :
    (∀ (c : DBCond) (now : Nat),
      validate_token c (revoke_token .ok db tok) tok now = none) ∧
    (∀ c : DBCond, (∀ t ∈ db.tokens, t.token ≠ tok) → revoke_token c db tok = db) ∧
    revoke_token .ok (revoke_token .ok db tok) tok = revoke_token .ok db tok := by
  have htok' : (tok == "") = false := beq_eq_false_iff_ne.2 htok
  have herase : ∀ x ∈ db.tokens.eraseP (fun t => t.token == tok),
      ¬ (x.token == tok) = true :=
    eraseP_no_match huniq
  have hrev : revoke_token .ok db tok =
      { users := db.users, tokens := db.tokens.eraseP (fun t => t.token == tok),
        nextId := db.nextId } := by
    simp [revoke_token, htok']
  refine ⟨?_, ?_, ?_⟩
  · intro c now
    cases c with
    | down => simp [validate_token, htok']
    | err => simp [validate_token, htok']
    | ok =>
      rw [hrev]
      have hnone : (db.tokens.eraseP (fun t => t.token == tok)).find?
          (fun t => t.token == tok && decide (now < t.expires_at)) = none := by
        rw [List.find?_eq_none]
        intro x hx hand
        rw [Bool.and_eq_true] at hand
        exact herase x hx hand.1
      simp [validate_token, htok', hnone]
  · intro c habs
    cases c with
    | down => simp [revoke_token]
    | err => simp [revoke_token]
    | ok =>
      have hid : db.tokens.eraseP (fun t => t.token == tok) = db.tokens :=
        List.eraseP_of_forall_not (fun a ha => by simp [habs a ha])
      simp [revoke_token, htok', hid]
  · rw [hrev]
    have hid : (db.tokens.eraseP (fun t => t.token == tok)).eraseP
        (fun t => t.token == tok) = db.tokens.eraseP (fun t => t.token == tok) :=
      List.eraseP_of_forall_not herase
    simp [revoke_token, htok', hid]

/-- Witness for C5 on `tokenDb`: revoking the stored token kills later
validation, revoking an unknown token changes nothing, and a second
revocation is a no-op. -/
theorem revoke_token_spec_witness :
    validate_token .ok (revoke_token .ok tokenDb "tok1") "tok1" 100 = none ∧
    revoke_token .ok tokenDb "ghost" = tokenDb ∧
    revoke_token .ok (revoke_token .ok tokenDb "tok1") "tok1" =
      revoke_token .ok tokenDb "tok1" :=
  ⟨(revoke_token_spec tokenDb "tok1" (by decide) (by decide)).1 .ok 100,
   (revoke_token_spec tokenDb "ghost" (by decide) (by decide)).2.1 .ok (by decide),
   (revoke_token_spec tokenDb "tok1" (by decide) (by decide)).2.2⟩

/-- C9: when credentials authenticate but token issuance fails (no client or
a raising insert, so `generate_token` returns `none`), the login submit still
succeeds: the session becomes authenticated with the user's info, while no
token is stored — session token, cookie and store are all left unchanged. -/
theorem login_succeeds_without_token (cAuth cTok : DBCond) (db : DB)
    (email password freshTok : String) (remember_me : Bool) (now : Nat)
    (s : Session) (ck : Cookies) (msg : String) (info : UserInfo)
    (hemail : email ≠ "") (hpass : password ≠ "")
    (hauth : authenticate_user cAuth db email password = (true, msg, some info))
    (hfail : cTok = .down ∨ cTok = .err) :
    show_login_form cAuth cTok db email password remember_me freshTok now s ck =
      (db, { authenticated := true, user_info := some info, auth_token := s.auth_token },
       ck, msg) := by
  have he : (email == "") = false := beq_eq_false_iff_ne.2 hemail
  have hp : (password == "") = false := beq_eq_false_iff_ne.2 hpass
  cases remember_me with
  | false => simp [show_login_form, he, hp, hauth]
  | true =>
    rcases hfail with rfl | rfl <;>
      simp [show_login_form, he, hp, hauth, generate_token]

/-- Witness for C9: in `exampleDb`, a correct login with remember-me checked
while the token store is unreachable still authenticates the session. -/
theorem login_succeeds_without_token_witness :
    show_login_form .ok .down exampleDb "alice@example.com" "Secret123!" true "fresh" 50
        { authenticated := false, user_info := none, auth_token := none }
        { auth_token := none } =
      (exampleDb,
       { authenticated := true,
         user_info := some { username := "alice", email := "alice@example.com",
                             user_id := 7 },
         auth_token := none },
       { auth_token := none }, "Login successful") :=
  login_succeeds_without_token .ok .down exampleDb "alice@example.com" "Secret123!"
    "fresh" true 50 { authenticated := false, user_info := none, auth_token := none }
    { auth_token := none } "Login successful"
    { username := "alice", email := "alice@example.com", user_id := 7 }
    (by decide) (by decide) (by decide) (Or.inl rfl)

end MealPlanner
